import Mathlib

/-
  Verification of `cmd/visualize/latent.py`.

  The script is a linear pipeline: read two JSON files, reshape them into
  tabular series, plot, save.  We embed the data-reshaping core shallowly:

  * numbers are modelled as rationals (the script only adds, divides,
    averages and differences finite float values; we collapse the
    non-finite float results NaN and inf to `none`, so series values are
    `Option ℚ` with `none` playing the role of NaN);
  * an `Item` models one JSON sample `{"timestamp": ..., "memory":
    {"working_set": ...}, "cpu": {"usage": {"total": ...}}}`.  The
    `timestamp` field holds the value of
    `np.datetime64(item["timestamp"].removesuffix("Z"))` expressed in
    seconds; the script only ever uses differences of these values, so the
    string parsing itself is not modelled;
  * Python dicts preserve insertion order, so the two JSON objects become
    association lists; record names are never used (only `len` and the
    values), so a component's records are a list of lists of items;
  * raised exceptions become `Except.error`; the Python value `None`
    returned by `parse_cadvisor_data` on an empty dict is a separate
    `Option` layer.
-/

namespace Latent

/-- The Python exceptions the script can raise after its two JSON loads
succeed: `record[0]` on an empty record (IndexError), `np.gradient` on a
series of fewer than two points or of mismatched lengths (ValueError),
`cpu.index` when `cpu` is still `None` because a component had no records
(AttributeError), `pd.DataFrame` on columns of different lengths
(ValueError), and looking up a module-level name that was never defined
(NameError). -/
inductive PyExn where
  | indexError : PyExn
  | gradientError : PyExn
  | attributeError : PyExn
  | lengthMismatch : PyExn
  | nameError : String → PyExn
  deriving DecidableEq

/-- One sample of the cadvisor log: parsed timestamp (in seconds),
`item["memory"]["working_set"]`, and `item["cpu"]["usage"]["total"]`
(cumulative CPU nanoseconds). -/
structure Item where
  timestamp : ℚ
  working_set : ℚ
  cpu_total : ℚ
  deriving DecidableEq

/-- The cadvisor JSON document: components in insertion order, each with
its list of records (each record a list of samples). -/
abbrev CadvisorData : Type := List (String × List (List Item))

/-- The `pd.DataFrame({"component": ..., "cpu": ..., "mem": ...,
"timestamp": ...})` built by the two parsing routines.  `cpu` and `mem`
entries are `Option ℚ` because the HA path can produce NaN values. -/
structure DataFrame where
  component : List String
  cpu : List (Option ℚ)
  mem : List (Option ℚ)
  timestamp : List ℚ
  deriving DecidableEq

/-- `pd.DataFrame` raises ValueError when the column lists have different
lengths; otherwise it assembles the table. -/
def mkDataFrame (component : List String) (cpu mem : List (Option ℚ))
    (timestamp : List ℚ) : Except PyExn DataFrame :=
  if component.length = cpu.length ∧ cpu.length = mem.length ∧
      mem.length = timestamp.length then
    .ok ⟨component, cpu, mem, timestamp⟩
  else
    .error .lengthMismatch

/-- Lift a binary rational operation to NaN-propagating values. -/
def o2 (f : ℚ → ℚ → ℚ) : Option ℚ → Option ℚ → Option ℚ
  | some a, some b => some (f a b)
  | _, _ => none

/-- NaN-propagating sum of a list of values (the empty sum is 0). -/
def osum : List (Option ℚ) → Option ℚ
  | [] => some 0
  | o :: rest => o2 (· + ·) o (osum rest)

/-! ## Command-line handling (lines 16-22)

The script proceeds only when `len(sys.argv) != 4` is false, i.e. with
three command-line arguments; otherwise it prints the usage text
`"{} [data-dir] [output-figure-dir]"` and exits with status 1.  On
success it binds `data_dir = sys.argv[1]` and
`output_figure_dir = sys.argv[2]`. -/

def script_arg_check (argv : List String) : Except Nat (String × String) :=
  if argv.length ≠ 4 then
    .error 1
  else
    .ok (argv.getD 1 "", argv.getD 2 "")

/-! ## `format` helpers (lines 73-102) -/

def kilobyte : ℚ := 1000
def megabyte : ℚ := 1000 * kilobyte
def gigabyte : ℚ := 1000 * megabyte

/-- `formatBytes(bytes)`: the pair of the scaled value handed to the
`'{:,.0f}'` conversion and the unit suffix appended to it. -/
def formatBytes (bytes : ℚ) : ℚ × String :=
  if 0 < bytes ∧ bytes < megabyte then
    (bytes / kilobyte, "KB")
  else if megabyte ≤ bytes ∧ bytes < gigabyte then
    (bytes / megabyte, "MB")
  else
    (bytes / gigabyte, "GB")

/-! ## Numeric library routines used by the parsers

`np.gradient(f, x)` with default `edge_order=1`: one-sided differences at
the two edges, the second-order three-point formula for non-uniformly
spaced interior points.  It raises ValueError when fewer than two points
are given or when the coordinate array's length does not match.  A zero
spacing makes the float code produce inf/NaN, collapsed to `none` here. -/

def gradAt (f : List (Option ℚ)) (x : List ℚ) (i : ℕ) : Option ℚ :=
  let n := f.length
  if i = 0 then
    let d := x.getD 1 0 - x.getD 0 0
    if d = 0 then none
    else o2 (fun b a => (b - a) / d) (f.getD 1 none) (f.getD 0 none)
  else if i + 1 = n then
    let d := x.getD (n - 1) 0 - x.getD (n - 2) 0
    if d = 0 then none
    else o2 (fun b a => (b - a) / d) (f.getD (n - 1) none) (f.getD (n - 2) none)
  else
    let hd := x.getD i 0 - x.getD (i - 1) 0
    let hs := x.getD (i + 1) 0 - x.getD i 0
    let dn := hs * hd * (hd + hs)
    if dn = 0 then none
    else
      match f.getD (i - 1) none, f.getD i none, f.getD (i + 1) none with
      | some a, some b, some c =>
          some ((-(hs * hs) * a + (hs * hs - hd * hd) * b + hd * hd * c) / dn)
      | _, _, _ => none

def np_gradient_vals (f : List (Option ℚ)) (x : List ℚ) : List (Option ℚ) :=
  (List.range f.length).map (gradAt f x)

def np_gradient (f : List (Option ℚ)) (x : List ℚ) :
    Except PyExn (List (Option ℚ)) :=
  if f.length = x.length ∧ 2 ≤ f.length then
    .ok (np_gradient_vals f x)
  else
    .error .gradientError

/-- `np.convolve(v, np.ones(m), 'same')`: the middle `max (v.length) m`
entries of the full convolution, which for an all-ones kernel are windowed
sums.  Entry `j` of the result is full-convolution entry `j + s` with
`s = (min (v.length) m - 1) / 2`. -/
def convolve_same_ones (v : List (Option ℚ)) (m : ℕ) : List (Option ℚ) :=
  let n := v.length
  let s := (min n m - 1) / 2
  (List.range (max n m)).map (fun j =>
    osum (((List.range n).filter
      (fun i => i ≤ j + s ∧ j + s < i + m)).map (fun i => v.getD i none)))

/-! ## pandas routines used by the HA parser

`pd.Series(vs, index=ts).resample("3S").mean()` over a timedelta index
whose first entry is 0: 3-second buckets `[3k, 3k+3)` from bucket 0 up to
the bucket of the largest timestamp, each holding the mean of its samples
(NaN when empty).  The embedding assumes chronological records (the first
sample of a record is its earliest), so elapsed timestamps are
non-negative and bucket 0 is the first bucket; negative buckets are
ignored. -/

def bucketOf (t : ℚ) : ℤ := ⌊t / 3⌋

def bucketCnt (ts : List ℚ) : ℕ := ((ts.map bucketOf).foldr max 0).toNat + 1

def resample3 (ts : List ℚ) (vs : List ℚ) : List (Option ℚ) :=
  (List.range (bucketCnt ts)).map (fun k : ℕ =>
    let sel := (List.zip ts vs).filter (fun p => bucketOf p.1 = (k : ℤ))
    if sel.length = 0 then none
    else some ((sel.map Prod.snd).sum / (sel.length : ℚ)))

/-- `.interpolate(method="time")` on the resampled series: a NaN with
valid neighbours on both sides is filled by time-weighted linear
interpolation (the resampled index is uniform with step 3, so the weights
reduce to index positions); a NaN after the last valid value is filled
with that value; a NaN before the first valid value is left NaN. -/
def interp_time (xs : List (Option ℚ)) : List (Option ℚ) :=
  (List.range xs.length).map (fun i : ℕ =>
    match xs.getD i none with
    | some v => some v
    | none =>
        match ((List.range (i + 1)).reverse).find?
            (fun j => (xs.getD j none).isSome),
          (List.range xs.length).find?
            (fun j => decide (i ≤ j) && (xs.getD j none).isSome) with
        | some jp, some jn =>
            match xs.getD jp none, xs.getD jn none with
            | some a, some b =>
                some (a + (b - a) * ((i : ℚ) - (jp : ℚ)) / ((jn : ℚ) - (jp : ℚ)))
            | _, _ => none
        | some jp, none => xs.getD jp none
        | none, _ => none)

/-- `pd.Series.add` without `fill_value`: indices are aligned (both
resampled series are bucket prefixes starting at 0, so the union is the
longer prefix) and positions present in only one series become NaN. -/
def seriesAdd (a b : List (Option ℚ)) : List (Option ℚ) :=
  (List.range (max a.length b.length)).map (fun j =>
    o2 (· + ·) (a.getD j none) (b.getD j none))

/-! ## `parse_singleton_data` (lines 115-137) -/

/-- The elapsed timestamps of a record:
`(np.datetime64(item) - base) / np.timedelta64(1, 's')` with `base` the
first sample's timestamp. -/
def elapsed (record : List Item) : List ℚ :=
  match record with
  | [] => []
  | first :: _ => record.map (fun it => it.timestamp - first.timestamp)

/-- Accumulated `(components, cpus, mems, timestamps)` column lists. -/
abbrev Cols : Type := List String × List (Option ℚ) × List (Option ℚ) × List ℚ

def catCols (a b : Cols) : Cols :=
  (a.1 ++ b.1, a.2.1 ++ b.2.1, a.2.2.1 ++ b.2.2.1, a.2.2.2 ++ b.2.2.2)

/-- The body of the singleton loop for one record: append the component
id and raw working set per item, collect `total / 1e9` and the elapsed
timestamps, then extend the cpu column with `np.gradient(sub_cpus,
sub_ts)` and the timestamp column with `sub_ts`. -/
def singleton_record (id : String) (record : List Item) : Except PyExn Cols :=
  match record with
  | [] => .error .indexError
  | _ :: _ =>
      let sub_cpus := record.map (fun it => it.cpu_total / 1000000000)
      let sub_ts := elapsed record
      match np_gradient (sub_cpus.map some) sub_ts with
      | .error e => .error e
      | .ok grad =>
          .ok (record.map (fun _ => id), grad,
            record.map (fun it => some it.working_set), sub_ts)

def singleton_records (id : String) : List (List Item) → Except PyExn Cols
  | [] => .ok ([], [], [], [])
  | r :: rs =>
      match singleton_record id r with
      | .error e => .error e
      | .ok c =>
          match singleton_records id rs with
          | .error e => .error e
          | .ok cs => .ok (catCols c cs)

def singleton_comps : CadvisorData → Except PyExn Cols
  | [] => .ok ([], [], [], [])
  | (id, records) :: rest =>
      match singleton_records id records with
      | .error e => .error e
      | .ok c =>
          match singleton_comps rest with
          | .error e => .error e
          | .ok cs => .ok (catCols c cs)

def parse_singleton_data (data : CadvisorData) : Except PyExn DataFrame :=
  match singleton_comps data with
  | .error e => .error e
  | .ok (cs, cp, ms, ts) => mkDataFrame cs cp ms ts

/-! ## `parse_ha_data` (lines 140-180) -/

/-- The body of the HA record loop before the accumulator update: the
resampled-and-interpolated memory and cpu series of one record. -/
def ha_record (record : List Item) :
    Except PyExn (List (Option ℚ) × List (Option ℚ)) :=
  match record with
  | [] => .error .indexError
  | _ :: _ =>
      let sub_ts := elapsed record
      .ok (interp_time (resample3 sub_ts (record.map (fun it => it.working_set))),
        interp_time (resample3 sub_ts
          (record.map (fun it => it.cpu_total / 1000000000))))

/-- `mem = resampled_mem if mem is None else mem.add(resampled_mem)`. -/
def addAcc (acc : Option (List (Option ℚ))) (s : List (Option ℚ)) :
    Option (List (Option ℚ)) :=
  match acc with
  | none => some s
  | some m => some (seriesAdd m s)

def ha_fold (accm accc : Option (List (Option ℚ))) :
    List (List Item) →
      Except PyExn (Option (List (Option ℚ)) × Option (List (Option ℚ)))
  | [] => .ok (accm, accc)
  | record :: rest =>
      match ha_record record with
      | .error e => .error e
      | .ok (sm, sc) => ha_fold (addAcc accm sm) (addAcc accc sc) rest

/-- The body of the HA component loop: fold the records into the two
accumulated series, read the timestamps off `cpu.index` (`cpu.index` on
the initial `None` raises AttributeError when a component has no
records), differentiate, smooth with
`np.convolve(cpu_rate, np.ones(10), 'same') / 10`, and emit the four
column segments. -/
def ha_component (id : String) (records : List (List Item)) :
    Except PyExn Cols :=
  match ha_fold none none records with
  | .error e => .error e
  | .ok (some mem, some cpu) =>
      let ts := (List.range cpu.length).map (fun k : ℕ => (3 : ℚ) * (k : ℚ))
      match np_gradient cpu ts with
      | .error e => .error e
      | .ok cpu_rate =>
          let avg := (convolve_same_ones cpu_rate 10).map
            (fun o => o.map (fun q => q / 10))
          .ok (ts.map (fun _ => id), avg, mem, ts)
  | .ok _ => .error .attributeError

def ha_comps : CadvisorData → Except PyExn Cols
  | [] => .ok ([], [], [], [])
  | (id, records) :: rest =>
      match ha_component id records with
      | .error e => .error e
      | .ok c =>
          match ha_comps rest with
          | .error e => .error e
          | .ok cs => .ok (catCols c cs)

def parse_ha_data (data : CadvisorData) : Except PyExn DataFrame :=
  match ha_comps data with
  | .error e => .error e
  | .ok (cs, cp, ms, ts) => mkDataFrame cs cp ms ts

/-! ## `parse_cadvisor_data` (lines 105-112)

The loop body returns in its first iteration in both branches, so only
the first component's record count is ever inspected; an empty dict skips
the loop and the function returns Python `None` (the outer `Option`). -/

def parse_cadvisor_data (data : CadvisorData) :
    Except PyExn (Option DataFrame) :=
  match data with
  | [] => .ok none
  | (_, records) :: _ =>
      if records.length = 1 then
        (parse_singleton_data data).map Option.some
      else
        (parse_ha_data data).map Option.some

/-! ## The module main flow after the JSON loads (lines 227-255)

Line 230 evaluates `plot_request_times(axes["left"],
parse_request_times(events_data))`.  Neither name is defined or imported
anywhere in the module (the listing below is every module-level binding),
so the call raises NameError before line 231 runs and `fig.savefig`
(line 252) is never reached. -/

def module_globals : List String :=
  ["json", "os", "sys", "plt", "ticker", "np", "pd", "sns", "flexitext",
   "lines", "withStroke", "data_dir", "output_figure_dir", "events_data",
   "events_file_path", "events_file", "cadvisor_data", "cadvisor_file_path",
   "cadvisor_file", "annotate_axis", "nanosecond", "microsecond",
   "millisecond", "second", "format", "kilobyte", "megabyte", "gigabyte",
   "formatBytes", "parse_cadvisor_data", "parse_singleton_data",
   "parse_ha_data", "plot_resource_usage", "fig", "axes", "title"]

def script_main {α : Type} (_events_data : α) (cadvisor_data : CadvisorData) :
    Except PyExn String :=
  if "plot_request_times" ∈ module_globals then
    if "parse_request_times" ∈ module_globals then
      match parse_cadvisor_data cadvisor_data with
      | .error e => .error e
      | .ok _ => .ok "indexed_requests.png"
    else
      .error (.nameError "parse_request_times")
  else
    .error (.nameError "plot_request_times")

/-! ## Derived forms used to state the claims

These re-express the column contents of the two parsers in closed form;
the theorems below prove that the parsers produce exactly these. -/

/-- The resampled-and-interpolated memory series of one record. -/
def memResampled (record : List Item) : List (Option ℚ) :=
  interp_time (resample3 (elapsed record) (record.map (fun it => it.working_set)))

/-- The resampled-and-interpolated cumulative-CPU series (nanoseconds
divided by 1e9) of one record. -/
def cpuResampled (record : List Item) : List (Option ℚ) :=
  interp_time (resample3 (elapsed record)
    (record.map (fun it => it.cpu_total / 1000000000)))

def maxLen (ls : List (List (Option ℚ))) : ℕ :=
  (ls.map List.length).foldr max 0

/-- Element-wise sum of a list of series, `none` (NaN) wherever a series
has no value at that position. -/
def ewSum (ls : List (List (Option ℚ))) : List (Option ℚ) :=
  (List.range (maxLen ls)).map (fun j => osum (ls.map (fun l => l.getD j none)))

/-- The length of a component's merged resampled series (the number of
3-second buckets spanned by its longest record). -/
def haLen (records : List (List Item)) : ℕ :=
  maxLen (records.map cpuResampled)

/-- The timestamp column segment of one HA component: the 3-second bucket
starts, in elapsed seconds. -/
def hTs1 (records : List (List Item)) : List ℚ :=
  (List.range (haLen records)).map (fun k : ℕ => (3 : ℚ) * (k : ℚ))

/-- The mem column segment of one HA component: the element-wise sum of
the records' resampled memory series. -/
def hMem1 (records : List (List Item)) : List (Option ℚ) :=
  ewSum (records.map memResampled)

/-- The cpu column segment of one HA component: the gradient of the
summed resampled CPU series with respect to the bucket timestamps,
convolved with a length-10 all-ones kernel in 'same' mode and divided
by 10. -/
def hCpu1 (records : List (List Item)) : List (Option ℚ) :=
  (convolve_same_ones
    (np_gradient_vals (ewSum (records.map cpuResampled)) (hTs1 records)) 10).map
    (fun o => o.map (fun q => q / 10))

/-- The component column segment of one HA component. -/
def hComp1 (id : String) (records : List (List Item)) : List String :=
  (hTs1 records).map (fun _ => id)

/-- The per-record column segments of the singleton parser. -/
def sComp1 (id : String) (r : List Item) : List String :=
  r.map (fun _ => id)

def sCpu1 (r : List Item) : List (Option ℚ) :=
  np_gradient_vals ((r.map (fun it => it.cpu_total / 1000000000)).map some)
    (elapsed r)

def sMem1 (r : List Item) : List (Option ℚ) :=
  r.map (fun it => some it.working_set)

/-! ## `format` (lines 73-88)

The tick formatter of the request-latency axis receives the tick position
of a log-scaled axis, a float; it is modelled on the reals. -/

noncomputable def nanosecond : ℝ := 1
noncomputable def microsecond : ℝ := 1000 * nanosecond
noncomputable def millisecond : ℝ := 1000 * microsecond
noncomputable def second : ℝ := 1000 * millisecond

open scoped Classical in
/-- `format(nanoseconds)`: the argument is first exponentiated
(`nanoseconds = np.power(10, nanoseconds)`), and only then is the unit
selected; the result is the pair of the scaled value handed to the
`'{:.0f}'` conversion and the unit suffix appended to it. -/
noncomputable def format (x : ℝ) : ℝ × String :=
  let ns := (10 : ℝ) ^ x
  if second ≤ ns then (ns / second, "s")
  else if millisecond ≤ ns ∧ ns < second then (ns / millisecond, "ms")
  else if microsecond ≤ ns ∧ ns < millisecond then (ns / microsecond, "us")
  else (ns / nanosecond, "ns")

/-! ## Concrete inputs used in witnesses and counterexamples -/

/-- A well-formed log mapping one component to one record with one
sample: `{"etcd": {"r0": [sample]}}`. -/
def c4Data : CadvisorData := [("etcd", [[⟨0, 5, 7⟩]])]

/-- A singleton log with one two-sample record. -/
def c4WSData : CadvisorData := [("api", [[⟨10, 4, 0⟩, ⟨11, 6, 2000000000⟩]])]

/-- An HA record spanning ten 3-second buckets (elapsed 0..27 s). -/
def c4WRec : List Item :=
  [⟨0, 1, 0⟩, ⟨3, 2, 3000000000⟩, ⟨6, 3, 6000000000⟩, ⟨9, 4, 9000000000⟩,
   ⟨12, 5, 12000000000⟩, ⟨15, 6, 15000000000⟩, ⟨18, 7, 18000000000⟩,
   ⟨21, 8, 21000000000⟩, ⟨24, 9, 24000000000⟩, ⟨27, 10, 27000000000⟩]

/-- An HA log with one component holding one ten-bucket record. -/
def c4WHData : CadvisorData := [("ha", [c4WRec])]

/-- A well-formed log mapping one component to an empty record dict:
`{"etcd": {}}`. -/
def c3Data : CadvisorData := [("etcd", [])]

/-- A singleton log with one two-sample record. -/
def c3WData : CadvisorData := [("kube", [[⟨0, 1, 0⟩, ⟨1, 2, 1000000000⟩]])]

/-- A singleton log whose record has exactly one sample per component. -/
def c5SData : CadvisorData := [("one", [[⟨0, 1, 0⟩, ⟨1, 2, 1000000000⟩]])]

/-- An HA log whose component has two records. -/
def c5HData : CadvisorData := [("two", [[⟨0, 1, 0⟩], [⟨0, 2, 0⟩]])]

/-- A singleton log with samples at elapsed 0, 1 and 2 seconds, memory
working sets 10, 20, 30 and cumulative CPU 0, 1, 4 seconds. -/
def c6Data : CadvisorData :=
  [("etcd", [[⟨100, 10, 0⟩, ⟨101, 20, 1000000000⟩, ⟨102, 30, 4000000000⟩]])]

/-- A singleton log with one two-sample record. -/
def c6WSData : CadvisorData := [("mem", [[⟨0, 7, 0⟩, ⟨2, 9, 4000000000⟩]])]

/-- Two HA records of the same component, each spanning ten 3-second
buckets; the second starts from a different absolute timestamp. -/
def c7Rec1 : List Item :=
  [⟨0, 100, 0⟩, ⟨3, 101, 3000000000⟩, ⟨6, 102, 6000000000⟩,
   ⟨9, 103, 9000000000⟩, ⟨12, 104, 12000000000⟩, ⟨15, 105, 15000000000⟩,
   ⟨18, 106, 18000000000⟩, ⟨21, 107, 21000000000⟩, ⟨24, 108, 24000000000⟩,
   ⟨27, 109, 27000000000⟩]

def c7Rec2 : List Item :=
  [⟨1000, 200, 0⟩, ⟨1003, 200, 1000000000⟩, ⟨1006, 200, 2000000000⟩,
   ⟨1009, 200, 3000000000⟩, ⟨1012, 200, 4000000000⟩, ⟨1015, 200, 5000000000⟩,
   ⟨1018, 200, 6000000000⟩, ⟨1021, 200, 7000000000⟩, ⟨1024, 200, 8000000000⟩,
   ⟨1027, 200, 9000000000⟩]

def c7Records : List (List Item) := [c7Rec1, c7Rec2]

/-- An HA record spanning ten 3-second buckets, for the C6 witness. -/
def c6WRec : List Item :=
  [⟨0, 50, 0⟩, ⟨3, 51, 1000000000⟩, ⟨6, 52, 2000000000⟩,
   ⟨9, 53, 3000000000⟩, ⟨12, 54, 4000000000⟩, ⟨15, 55, 5000000000⟩,
   ⟨18, 56, 6000000000⟩, ⟨21, 57, 7000000000⟩, ⟨24, 58, 8000000000⟩,
   ⟨27, 59, 9000000000⟩]

/-! ## List utilities -/

theorem range_map_getD {α : Type} (n : ℕ) (f : ℕ → α) (d : α) (j : ℕ) :
    ((List.range n).map f).getD j d = if j < n then f j else d := by
  by_cases h : j < n
  · simp [h, List.getD_eq_getElem?_getD, List.getElem?_range h]
  · have hn : ((List.range n).map f)[j]? = none :=
      List.getElem?_eq_none (by simpa using Nat.le_of_not_lt h)
    simp [h, List.getD_eq_getElem?_getD, hn]

theorem getD_eq_none_of_le {α : Type} (l : List (Option α)) (j : ℕ)
    (h : l.length ≤ j) : l.getD j none = none := by
  simp [List.getD_eq_getElem?_getD, List.getElem?_eq_none h]

theorem list_ext_getD {α : Type} (a b : List (Option α))
    (hlen : a.length = b.length)
    (h : ∀ j, a.getD j none = b.getD j none) : a = b := by
  apply List.ext_getElem?
  intro n
  by_cases hn : n < a.length
  · have hn' : n < b.length := hlen ▸ hn
    have := h n
    simp only [List.getD_eq_getElem?_getD, List.getElem?_eq_getElem hn,
      List.getElem?_eq_getElem hn', Option.getD_some] at this
    simp [List.getElem?_eq_getElem hn, List.getElem?_eq_getElem hn', this]
  · have hn' : ¬ n < b.length := by omega
    simp [List.getElem?_eq_none (Nat.le_of_not_lt hn),
      List.getElem?_eq_none (Nat.le_of_not_lt hn')]

/-! ## Algebra of `seriesAdd`, `osum` and `ewSum` -/

theorem seriesAdd_length (a b : List (Option ℚ)) :
    (seriesAdd a b).length = max a.length b.length := by
  simp [seriesAdd]

theorem seriesAdd_getD (a b : List (Option ℚ)) (j : ℕ) :
    (seriesAdd a b).getD j none = o2 (· + ·) (a.getD j none) (b.getD j none) := by
  unfold seriesAdd
  rw [range_map_getD]
  by_cases h : j < max a.length b.length
  · simp [h]
  · have ha : a.getD j none = none := getD_eq_none_of_le _ _ (by omega)
    have hb : b.getD j none = none := getD_eq_none_of_le _ _ (by omega)
    rw [if_neg h, ha, hb]
    rfl

theorem osum_none_of_mem (l : List (Option ℚ)) (h : none ∈ l) :
    osum l = none := by
  induction l with
  | nil => cases h
  | cons o rest ih =>
      cases h with
      | head => simp [osum, o2]
      | tail _ hmem =>
          cases o with
          | none => simp [osum, o2]
          | some a => simp [osum, ih hmem, o2]

theorem maxLen_le_of_mem (ls : List (List (Option ℚ))) (l : List (Option ℚ))
    (h : l ∈ ls) : l.length ≤ maxLen ls := by
  induction ls with
  | nil => cases h
  | cons a rest ih =>
      cases h with
      | head => simp only [maxLen, List.map_cons, List.foldr_cons]; omega
      | tail _ hmem =>
          have := ih hmem
          simp only [maxLen, List.map_cons, List.foldr_cons] at *
          omega

theorem ewSum_length (ls : List (List (Option ℚ))) :
    (ewSum ls).length = maxLen ls := by
  simp [ewSum]

theorem ewSum_getD (ls : List (List (Option ℚ))) (j : ℕ) :
    (ewSum ls).getD j none =
      if j < maxLen ls then osum (ls.map (fun l => l.getD j none)) else none := by
  unfold ewSum
  rw [range_map_getD]

theorem ewSum_getD_of_ne (ls : List (List (Option ℚ))) (h : ls ≠ []) (j : ℕ) :
    (ewSum ls).getD j none = osum (ls.map (fun l => l.getD j none)) := by
  rw [ewSum_getD]
  by_cases hj : j < maxLen ls
  · simp [hj]
  · have : ∀ l ∈ ls, l.getD j none = none := fun l hl =>
      getD_eq_none_of_le l j (le_trans (maxLen_le_of_mem ls l hl) (Nat.le_of_not_lt hj))
    obtain ⟨a, rest, rfl⟩ := List.exists_cons_of_ne_nil h
    rw [if_neg hj]
    symm
    apply osum_none_of_mem
    simp only [List.map_cons, List.mem_cons]
    exact Or.inl (this a (by simp)).symm

theorem ewSum_singleton (s : List (Option ℚ)) : ewSum [s] = s := by
  apply list_ext_getD
  · simp [ewSum_length, maxLen]
  · intro j
    rw [ewSum_getD]
    simp only [maxLen, List.map_cons, List.map_nil, List.foldr_cons,
      List.foldr_nil, Nat.max_zero]
    by_cases hj : j < s.length
    · have : s.getD j none = s[j] := by
        simp [List.getD_eq_getElem?_getD, List.getElem?_eq_getElem hj]
      cases hs : s[j] with
      | none => simp [hj, osum, o2, this, hs]
      | some v => simp [hj, osum, o2, this, hs]
    · rw [if_neg hj]
      exact (getD_eq_none_of_le s j (Nat.le_of_not_lt hj)).symm

theorem ewSum_cons (s : List (Option ℚ)) (ls : List (List (Option ℚ)))
    (h : ls ≠ []) : ewSum (s :: ls) = seriesAdd s (ewSum ls) := by
  apply list_ext_getD
  · simp only [ewSum_length, seriesAdd_length, maxLen, List.map_cons,
      List.foldr_cons]
  · intro j
    rw [seriesAdd_getD, ewSum_getD_of_ne _ (by simp) j, ewSum_getD_of_ne _ h j]
    simp [osum]

theorem seriesAdd_assoc (a b c : List (Option ℚ)) :
    seriesAdd (seriesAdd a b) c = seriesAdd a (seriesAdd b c) := by
  apply list_ext_getD
  · simp [seriesAdd_length, Nat.max_assoc]
  · intro j
    rw [seriesAdd_getD, seriesAdd_getD, seriesAdd_getD, seriesAdd_getD]
    cases a.getD j none <;> cases b.getD j none <;> cases c.getD j none <;>
      simp [o2, add_assoc]

theorem foldl_seriesAdd_ewSum (l : List (List (Option ℚ))) (s : List (Option ℚ)) :
    List.foldl seriesAdd s l = ewSum (s :: l) := by
  induction l generalizing s with
  | nil => simp [ewSum_singleton]
  | cons r rs ih =>
      rw [List.foldl_cons, ih]
      cases rs with
      | nil =>
          rw [ewSum_singleton, ewSum_cons s [r] (by simp), ewSum_singleton]
      | cons r2 rs2 =>
          rw [ewSum_cons (seriesAdd s r) _ (by simp),
            ewSum_cons s _ (by simp), ewSum_cons r _ (by simp),
            seriesAdd_assoc]

/-! ## Length facts -/

theorem interp_time_length (xs : List (Option ℚ)) :
    (interp_time xs).length = xs.length := by
  simp [interp_time]

theorem resample3_length (ts vs : List ℚ) :
    (resample3 ts vs).length = bucketCnt ts := by
  simp [resample3]

theorem elapsed_length (r : List Item) : (elapsed r).length = r.length := by
  cases r <;> simp [elapsed]

theorem memResampled_length (r : List Item) :
    (memResampled r).length = (cpuResampled r).length := by
  simp [memResampled, cpuResampled, interp_time_length, resample3_length]

theorem np_gradient_vals_length (f : List (Option ℚ)) (x : List ℚ) :
    (np_gradient_vals f x).length = f.length := by
  simp [np_gradient_vals]

theorem convolve_same_ones_length (v : List (Option ℚ)) (m : ℕ) :
    (convolve_same_ones v m).length = max v.length m := by
  simp [convolve_same_ones]

theorem maxLen_mem_eq_cpu (records : List (List Item)) :
    maxLen (records.map memResampled) = maxLen (records.map cpuResampled) := by
  induction records with
  | nil => rfl
  | cons r rs ih =>
      show max (memResampled r).length (maxLen (rs.map memResampled)) =
        max (cpuResampled r).length (maxLen (rs.map cpuResampled))
      rw [memResampled_length, ih]

theorem hTs1_length (records : List (List Item)) :
    (hTs1 records).length = haLen records := by
  simp [hTs1]

theorem hComp1_length (id : String) (records : List (List Item)) :
    (hComp1 id records).length = haLen records := by
  simp [hComp1, hTs1]

theorem hMem1_length (records : List (List Item)) :
    (hMem1 records).length = haLen records := by
  rw [hMem1, ewSum_length, maxLen_mem_eq_cpu]
  rfl

theorem hCpu1_length (records : List (List Item)) (h : 10 ≤ haLen records) :
    (hCpu1 records).length = haLen records := by
  rw [hCpu1, List.length_map, convolve_same_ones_length, np_gradient_vals_length,
    ewSum_length]
  show max (haLen records) 10 = haLen records
  omega

/-! ## The HA pipeline in closed form -/

theorem ha_record_eq (r : List Item) (h : r ≠ []) :
    ha_record r = .ok (memResampled r, cpuResampled r) := by
  cases r with
  | nil => exact absurd rfl h
  | cons a t => rfl

theorem ha_fold_some (rs : List (List Item)) (M C : List (Option ℚ))
    (h : ∀ r ∈ rs, r ≠ []) :
    ha_fold (some M) (some C) rs =
      .ok (some (List.foldl seriesAdd M (rs.map memResampled)),
        some (List.foldl seriesAdd C (rs.map cpuResampled))) := by
  induction rs generalizing M C with
  | nil => rfl
  | cons r t ih =>
      have hr : r ≠ [] := h r (by simp)
      simp only [ha_fold, ha_record_eq r hr, addAcc, List.map_cons,
        List.foldl_cons]
      exact ih _ _ (fun x hx => h x (by simp [hx]))

theorem ha_fold_none (records : List (List Item)) (h0 : records ≠ [])
    (h1 : ∀ r ∈ records, r ≠ []) :
    ha_fold none none records =
      .ok (some (ewSum (records.map memResampled)),
        some (ewSum (records.map cpuResampled))) := by
  obtain ⟨r, rs, rfl⟩ := List.exists_cons_of_ne_nil h0
  simp only [ha_fold, ha_record_eq r (h1 r (by simp)), addAcc]
  rw [ha_fold_some rs _ _ (fun x hx => h1 x (by simp [hx])),
    foldl_seriesAdd_ewSum, foldl_seriesAdd_ewSum]
  simp only [List.map_cons]

theorem ha_component_eq (id : String) (records : List (List Item))
    (h0 : records ≠ []) (h1 : ∀ r ∈ records, r ≠ [])
    (h2 : 10 ≤ haLen records) :
    ha_component id records =
      .ok (hComp1 id records, hCpu1 records, hMem1 records, hTs1 records) := by
  have hlen : (ewSum (records.map cpuResampled)).length = haLen records :=
    ewSum_length _
  have hgrad : np_gradient (ewSum (records.map cpuResampled))
      ((List.range (haLen records)).map (fun k : ℕ => (3 : ℚ) * (k : ℚ))) =
      .ok (np_gradient_vals (ewSum (records.map cpuResampled))
        ((List.range (haLen records)).map (fun k : ℕ => (3 : ℚ) * (k : ℚ)))) := by
    unfold np_gradient
    rw [if_pos]
    refine ⟨?_, by omega⟩
    rw [hlen]
    simp
  unfold ha_component
  simp only [ha_fold_none records h0 h1, hlen, hgrad, hComp1, hCpu1, hMem1, hTs1]

theorem ha_comps_eq (data : CadvisorData)
    (h : ∀ c ∈ data, c.2 ≠ [] ∧ (∀ r ∈ c.2, r ≠ []) ∧ 10 ≤ haLen c.2) :
    ha_comps data = .ok ((data.map (fun c => hComp1 c.1 c.2)).flatten,
      (data.map (fun c => hCpu1 c.2)).flatten,
      (data.map (fun c => hMem1 c.2)).flatten,
      (data.map (fun c => hTs1 c.2)).flatten) := by
  induction data with
  | nil => rfl
  | cons c rest ih =>
      obtain ⟨id, records⟩ := c
      obtain ⟨hc0, hc1, hc2⟩ := h (id, records) (by simp)
      simp only [ha_comps, ha_component_eq id records hc0 hc1 hc2,
        ih (fun x hx => h x (by simp [hx])), catCols, List.map_cons,
        List.flatten_cons]

theorem parse_ha_eq (data : CadvisorData)
    (h : ∀ c ∈ data, c.2 ≠ [] ∧ (∀ r ∈ c.2, r ≠ []) ∧ 10 ≤ haLen c.2) :
    parse_ha_data data =
      .ok ⟨(data.map (fun c => hComp1 c.1 c.2)).flatten,
        (data.map (fun c => hCpu1 c.2)).flatten,
        (data.map (fun c => hMem1 c.2)).flatten,
        (data.map (fun c => hTs1 c.2)).flatten⟩ := by
  unfold parse_ha_data
  simp only [ha_comps_eq data h]
  unfold mkDataFrame
  rw [if_pos]
  refine ⟨?_, ?_, ?_⟩ <;> simp only [List.length_flatten, List.map_map] <;>
    refine congrArg List.sum (List.map_congr_left (fun c hc => ?_)) <;>
    simp only [Function.comp]
  · rw [hComp1_length, hCpu1_length _ (h c hc).2.2]
  · rw [hCpu1_length _ (h c hc).2.2, hMem1_length]
  · rw [hMem1_length, hTs1_length]

/-! ## The singleton pipeline in closed form -/

theorem sComp1_length (id : String) (r : List Item) :
    (sComp1 id r).length = r.length := by
  simp [sComp1]

theorem sCpu1_length (r : List Item) : (sCpu1 r).length = r.length := by
  simp [sCpu1, np_gradient_vals_length]

theorem sMem1_length (r : List Item) : (sMem1 r).length = r.length := by
  simp [sMem1]

theorem singleton_record_eq (id : String) (r : List Item) (h : 2 ≤ r.length) :
    singleton_record id r = .ok (sComp1 id r, sCpu1 r, sMem1 r, elapsed r) := by
  cases r with
  | nil => simp at h
  | cons a t =>
      have hgrad : np_gradient
          (((a :: t).map (fun it => it.cpu_total / 1000000000)).map some)
          (elapsed (a :: t)) =
          .ok (np_gradient_vals
            (((a :: t).map (fun it => it.cpu_total / 1000000000)).map some)
            (elapsed (a :: t))) := by
        unfold np_gradient
        rw [if_pos]
        refine ⟨?_, ?_⟩
        · simp [elapsed_length]
        · simpa using h
      simp only [singleton_record, hgrad, sComp1, sCpu1, sMem1]

theorem singleton_records_eq (id : String) (rs : List (List Item))
    (h : ∀ r ∈ rs, 2 ≤ r.length) :
    singleton_records id rs =
      .ok ((rs.map (sComp1 id)).flatten, (rs.map sCpu1).flatten,
        (rs.map sMem1).flatten, (rs.map elapsed).flatten) := by
  induction rs with
  | nil => rfl
  | cons r t ih =>
      simp only [singleton_records, singleton_record_eq id r (h r (by simp)),
        ih (fun x hx => h x (by simp [hx])), catCols, List.map_cons,
        List.flatten_cons]

theorem singleton_comps_eq (data : CadvisorData)
    (h : ∀ c ∈ data, ∀ r ∈ c.2, 2 ≤ r.length) :
    singleton_comps data =
      .ok ((data.map (fun c => (c.2.map (sComp1 c.1)).flatten)).flatten,
        (data.map (fun c => (c.2.map sCpu1).flatten)).flatten,
        (data.map (fun c => (c.2.map sMem1).flatten)).flatten,
        (data.map (fun c => (c.2.map elapsed).flatten)).flatten) := by
  induction data with
  | nil => rfl
  | cons c rest ih =>
      obtain ⟨id, records⟩ := c
      simp only [singleton_comps,
        singleton_records_eq id records (h (id, records) (by simp)),
        ih (fun x hx => h x (by simp [hx])), catCols, List.map_cons,
        List.flatten_cons]

theorem parse_singleton_eq (data : CadvisorData)
    (h : ∀ c ∈ data, ∀ r ∈ c.2, 2 ≤ r.length) :
    parse_singleton_data data =
      .ok ⟨(data.map (fun c => (c.2.map (sComp1 c.1)).flatten)).flatten,
        (data.map (fun c => (c.2.map sCpu1).flatten)).flatten,
        (data.map (fun c => (c.2.map sMem1).flatten)).flatten,
        (data.map (fun c => (c.2.map elapsed).flatten)).flatten⟩ := by
  unfold parse_singleton_data
  simp only [singleton_comps_eq data h]
  unfold mkDataFrame
  rw [if_pos]
  refine ⟨?_, ?_, ?_⟩ <;> simp only [List.length_flatten, List.map_map] <;>
    refine congrArg List.sum (List.map_congr_left (fun c hc => ?_)) <;>
    simp only [Function.comp] <;>
    simp only [List.length_flatten, List.map_map] <;>
    refine congrArg List.sum (List.map_congr_left (fun r hr => ?_)) <;>
    simp only [Function.comp]
  · rw [sComp1_length, sCpu1_length]
  · rw [sCpu1_length, sMem1_length]
  · rw [sMem1_length, elapsed_length]

theorem singleton_record_ok_iff (id : String) (r : List Item) :
    (∃ y, singleton_record id r = .ok y) ↔ 2 ≤ r.length := by
  constructor
  · rintro ⟨y, hy⟩
    by_contra hlt
    push_neg at hlt
    match r, hlt with
    | [], _ => simp [singleton_record] at hy
    | [a], _ =>
        have hbad : np_gradient [some (a.cpu_total / 1000000000)]
            (elapsed [a]) = .error .gradientError := by
          unfold np_gradient
          rw [if_neg]
          simp
        simp [singleton_record, hbad] at hy
    | a :: b :: t, hlt =>
        simp at hlt
        omega
  · intro h
    exact ⟨_, singleton_record_eq id r h⟩

theorem singleton_records_ok_iff (id : String) (rs : List (List Item)) :
    (∃ y, singleton_records id rs = .ok y) ↔ ∀ r ∈ rs, 2 ≤ r.length := by
  induction rs with
  | nil => simp [singleton_records]
  | cons r t ih =>
      constructor
      · rintro ⟨y, hy⟩
        cases hrec : singleton_record id r with
        | error e => simp [singleton_records, hrec] at hy
        | ok c =>
            cases hrest : singleton_records id t with
            | error e => simp [singleton_records, hrec, hrest] at hy
            | ok cs =>
                intro x hx
                rcases List.mem_cons.mp hx with hx | hx
                · subst hx
                  exact (singleton_record_ok_iff id x).mp ⟨c, hrec⟩
                · exact (ih.mp ⟨cs, hrest⟩) x hx
      · intro h
        obtain ⟨c, hc⟩ := (singleton_record_ok_iff id r).mpr (h r (by simp))
        obtain ⟨cs, hcs⟩ := ih.mpr (fun x hx => h x (by simp [hx]))
        exact ⟨catCols c cs, by simp [singleton_records, hc, hcs]⟩

theorem singleton_comps_ok_iff (data : CadvisorData) :
    (∃ y, singleton_comps data = .ok y) ↔
      ∀ c ∈ data, ∀ r ∈ c.2, 2 ≤ r.length := by
  induction data with
  | nil => simp [singleton_comps]
  | cons c rest ih =>
      obtain ⟨id, records⟩ := c
      constructor
      · rintro ⟨y, hy⟩
        cases hrec : singleton_records id records with
        | error e => simp [singleton_comps, hrec] at hy
        | ok cc =>
            cases hrest : singleton_comps rest with
            | error e => simp [singleton_comps, hrec, hrest] at hy
            | ok cs =>
                intro x hx
                rcases List.mem_cons.mp hx with hx | hx
                · subst hx
                  exact (singleton_records_ok_iff id records).mp ⟨cc, hrec⟩
                · exact (ih.mp ⟨cs, hrest⟩) x hx
      · intro h
        obtain ⟨cc, hcc⟩ := (singleton_records_ok_iff id records).mpr
          (h (id, records) (by simp))
        obtain ⟨cs, hcs⟩ := ih.mpr (fun x hx => h x (by simp [hx]))
        exact ⟨catCols cc cs, by simp [singleton_comps, hcc, hcs]⟩

theorem parse_singleton_ok_iff (data : CadvisorData) :
    (∃ df, parse_singleton_data data = .ok df) ↔
      ∀ c ∈ data, ∀ r ∈ c.2, 2 ≤ r.length := by
  constructor
  · rintro ⟨df, hdf⟩
    cases hc : singleton_comps data with
    | error e => simp [parse_singleton_data, hc] at hdf
    | ok y => exact (singleton_comps_ok_iff data).mp ⟨y, hc⟩
  · intro h
    exact ⟨_, parse_singleton_eq data h⟩

theorem singleton_flat_lengths (data : CadvisorData) :
    ((data.map (fun c => (c.2.map (sComp1 c.1)).flatten)).flatten).length =
      ((data.map (fun c => (c.2.map elapsed).flatten)).flatten).length ∧
    ((data.map (fun c => (c.2.map sCpu1).flatten)).flatten).length =
      ((data.map (fun c => (c.2.map elapsed).flatten)).flatten).length ∧
    ((data.map (fun c => (c.2.map sMem1).flatten)).flatten).length =
      ((data.map (fun c => (c.2.map elapsed).flatten)).flatten).length := by
  refine ⟨?_, ?_, ?_⟩ <;> simp only [List.length_flatten, List.map_map] <;>
    refine congrArg List.sum (List.map_congr_left (fun c hc => ?_)) <;>
    simp only [Function.comp] <;>
    simp only [List.length_flatten, List.map_map] <;>
    refine congrArg List.sum (List.map_congr_left (fun r hr => ?_)) <;>
    simp only [Function.comp]
  · rw [sComp1_length, elapsed_length]
  · rw [sCpu1_length, elapsed_length]
  · rw [sMem1_length, elapsed_length]

theorem ha_flat_lengths (data : CadvisorData)
    (h : ∀ c ∈ data, 10 ≤ haLen c.2) :
    ((data.map (fun c => hComp1 c.1 c.2)).flatten).length =
      ((data.map (fun c => hTs1 c.2)).flatten).length ∧
    ((data.map (fun c => hCpu1 c.2)).flatten).length =
      ((data.map (fun c => hTs1 c.2)).flatten).length ∧
    ((data.map (fun c => hMem1 c.2)).flatten).length =
      ((data.map (fun c => hTs1 c.2)).flatten).length := by
  refine ⟨?_, ?_, ?_⟩ <;> simp only [List.length_flatten, List.map_map] <;>
    refine congrArg List.sum (List.map_congr_left (fun c hc => ?_)) <;>
    simp only [Function.comp]
  · rw [hComp1_length, hTs1_length]
  · rw [hCpu1_length _ (h c hc), hTs1_length]
  · rw [hMem1_length, hTs1_length]

/-! ## The claims -/

/-- C1: the claim says the script proceeds exactly when it is given the
two documented arguments, i.e. `len(sys.argv) == 3`.  The code tests
`len(sys.argv) != 4`: with the documented two arguments it prints the
usage text and exits with status 1, and it proceeds only when given
three arguments, contradicting its own usage message
`"{} [data-dir] [output-figure-dir]"` (only `sys.argv[1]` and
`sys.argv[2]` are ever read).  This theorem evaluates the argument gate
at the failing input and at the input the code actually accepts. -/
theorem c1_code_bug :
    script_arg_check ["latent.py", "data-dir", "figure-dir"] = .error 1 ∧
    script_arg_check ["latent.py", "data-dir", "figure-dir", "extra"] =
      .ok ("data-dir", "figure-dir") :=
  ⟨rfl, rfl⟩

/-- C2: the claim says that for every pair of well-formed JSON inputs the
script runs to completion and saves `indexed_requests.png`.  In fact line
230 calls `plot_request_times` and `parse_request_times`, neither of
which is defined or imported anywhere in the module, so every run raises
NameError there and `fig.savefig` is never reached.  This theorem
evaluates the main flow on arbitrary parsed inputs. -/
theorem c2_code_bug (α : Type) (events : α) (cadvisor : CadvisorData) :
    script_main events cadvisor = .error (.nameError "plot_request_times") :=
  rfl

/-- C3 counterexample: the well-formed JSON input `{"etcd": {}}` (a
component with no records) drives the HA path to evaluate `cpu.index`
with `cpu` still `None`, raising AttributeError — an error other than a
missing file or malformed JSON, raised on an input that passed JSON
parsing, contradicting the claim that no other error is raised. -/
theorem c3_counterexample :
    parse_cadvisor_data c3Data = .error .attributeError := by
  with_unfolding_all rfl

/-- C3 (amended): the script indeed has no recovery logic, but its
failure modes are not limited to missing files and malformed JSON: every
run fails with NameError on the undefined plotting helpers, and the
parsing routines raise on structurally degenerate inputs — the singleton
parser returns a table exactly when every record has at least two
samples, and raises otherwise. -/
theorem c3_amended :
    (∀ (α : Type) (events : α) (cadvisor : CadvisorData),
      script_main events cadvisor = .error (.nameError "plot_request_times")) ∧
    (∀ data : CadvisorData,
      (∃ df, parse_singleton_data data = .ok df) ↔
        ∀ c ∈ data, ∀ r ∈ c.2, 2 ≤ r.length) :=
  ⟨fun _ _ _ => rfl, parse_singleton_ok_iff⟩

/-- C3 witness: the amended claim applied to a concrete two-sample log. -/
theorem c3_witness :
    script_main () c3WData = .error (.nameError "plot_request_times") ∧
    (∃ df, parse_singleton_data c3WData = .ok df) :=
  ⟨c3_amended.1 Unit () c3WData, (c3_amended.2 c3WData).mpr (by decide)⟩

/-- C4 counterexample: the non-empty log `{"etcd": {"r0": [sample]}}`
makes `parse_singleton_data` raise (np.gradient needs at least two
points), so it does not return a table for every non-empty log as the
claim states. -/
theorem c4_counterexample :
    parse_singleton_data c4Data = .error .gradientError := by
  with_unfolding_all rfl

/-- C4 (amended): provided every record has at least two samples
(singleton path), or every component has at least one record, no empty
record, and at least ten resample buckets (HA path, where fewer buckets
make the length-10 'same' convolution longer than the other columns and
`pd.DataFrame` raise), the parsers return a table with the four columns
component/cpu/mem/timestamp of equal length; the timestamp column holds
the elapsed seconds since each record's first sample — per sample in the
singleton path, as the 3-second bucket starts in the HA path — the
component column repeats the component id, and the singleton mem column
is the raw working-set values. -/
theorem c4_amended :
    (∀ data : CadvisorData, data ≠ [] →
      (∀ c ∈ data, ∀ r ∈ c.2, 2 ≤ r.length) →
      ∃ df, parse_singleton_data data = .ok df ∧
        df.component.length = df.timestamp.length ∧
        df.cpu.length = df.timestamp.length ∧
        df.mem.length = df.timestamp.length ∧
        df.component = (data.map (fun c => (c.2.map (sComp1 c.1)).flatten)).flatten ∧
        df.mem = (data.map (fun c => (c.2.map sMem1).flatten)).flatten ∧
        df.timestamp = (data.map (fun c => (c.2.map elapsed).flatten)).flatten) ∧
    (∀ data : CadvisorData, data ≠ [] →
      (∀ c ∈ data, c.2 ≠ [] ∧ (∀ r ∈ c.2, r ≠ []) ∧ 10 ≤ haLen c.2) →
      ∃ df, parse_ha_data data = .ok df ∧
        df.component.length = df.timestamp.length ∧
        df.cpu.length = df.timestamp.length ∧
        df.mem.length = df.timestamp.length ∧
        df.component = (data.map (fun c => hComp1 c.1 c.2)).flatten ∧
        df.timestamp = (data.map (fun c => hTs1 c.2)).flatten) := by
  constructor
  · intro data _ h
    obtain ⟨l1, l2, l3⟩ := singleton_flat_lengths data
    exact ⟨_, parse_singleton_eq data h, l1, l2, l3, rfl, rfl, rfl⟩
  · intro data _ h
    obtain ⟨l1, l2, l3⟩ := ha_flat_lengths data (fun c hc => (h c hc).2.2)
    exact ⟨_, parse_ha_eq data h, l1, l2, l3, rfl, rfl⟩

/-- C4 witness: the amended claim applied to a two-sample singleton log
and to a ten-bucket HA log. -/
theorem c4_witness :
    ((c4WSData ≠ [] ∧ ∀ c ∈ c4WSData, ∀ r ∈ c.2, 2 ≤ r.length) ∧
      ∃ df, parse_singleton_data c4WSData = .ok df ∧
        df.component.length = df.timestamp.length) ∧
    ((c4WHData ≠ [] ∧ ∀ c ∈ c4WHData, c.2 ≠ [] ∧ (∀ r ∈ c.2, r ≠ []) ∧
        10 ≤ haLen c.2) ∧
      ∃ df, parse_ha_data c4WHData = .ok df ∧
        df.component.length = df.timestamp.length) := by
  have hha : ∀ c ∈ c4WHData, c.2 ≠ [] ∧ (∀ r ∈ c.2, r ≠ []) ∧ 10 ≤ haLen c.2 := by
    intro c hc
    rw [show c4WHData = [("ha", [c4WRec])] from rfl, List.mem_singleton] at hc
    subst hc
    refine ⟨by decide, by decide, ?_⟩
    show 10 ≤ haLen [c4WRec]
    have h10 : haLen [c4WRec] = 10 := by with_unfolding_all rfl
    omega
  constructor
  · refine ⟨⟨by decide, by decide⟩, ?_⟩
    obtain ⟨df, hdf, hl, _⟩ := c4_amended.1 c4WSData (by decide) (by decide)
    exact ⟨df, hdf, hl⟩
  · refine ⟨⟨by decide, hha⟩, ?_⟩
    obtain ⟨df, hdf, hl, _⟩ := c4_amended.2 c4WHData (by decide) hha
    exact ⟨df, hdf, hl⟩

/-- C5: when every component of a non-empty log has exactly one record,
`parse_cadvisor_data` parses the log with `parse_singleton_data`; when
every component has two or more records it parses the log with
`parse_ha_data` (the dispatch inspects the first component, which the
hypotheses cover). -/
theorem c5_dispatch (id : String) (recs : List (List Item))
    (rest : CadvisorData) :
    ((∀ c ∈ (id, recs) :: rest, c.2.length = 1) →
      parse_cadvisor_data ((id, recs) :: rest) =
        (parse_singleton_data ((id, recs) :: rest)).map Option.some) ∧
    ((∀ c ∈ (id, recs) :: rest, 2 ≤ c.2.length) →
      parse_cadvisor_data ((id, recs) :: rest) =
        (parse_ha_data ((id, recs) :: rest)).map Option.some) := by
  constructor
  · intro h
    have h1 : recs.length = 1 := h (id, recs) (by simp)
    simp [parse_cadvisor_data, h1]
  · intro h
    have h1 : 2 ≤ recs.length := h (id, recs) (by simp)
    have hne : ¬ recs.length = 1 := by omega
    simp [parse_cadvisor_data, hne]

/-- C5 witness: the dispatch applied to a one-record-per-component log
and to a two-record component. -/
theorem c5_witness :
    ((∀ c ∈ c5SData, c.2.length = 1) ∧
      parse_cadvisor_data c5SData = (parse_singleton_data c5SData).map Option.some) ∧
    ((∀ c ∈ c5HData, 2 ≤ c.2.length) ∧
      parse_cadvisor_data c5HData = (parse_ha_data c5HData).map Option.some) :=
  ⟨⟨by decide, (c5_dispatch "one" [[⟨0, 1, 0⟩, ⟨1, 2, 1000000000⟩]] []).1 (by decide)⟩,
   ⟨by decide, (c5_dispatch "two" [[⟨0, 1, 0⟩], [⟨0, 2, 0⟩]] []).2 (by decide)⟩⟩

/-- C6 counterexample: on the singleton log `c6Data` (samples at elapsed
0, 1, 2 seconds) the table handed to the plotting routine carries the
memory working sets and timestamps verbatim (no 3-second resampling: the
timestamps 1 and 2 are not bucket starts) and the cpu column is the raw
`np.gradient` values with no moving-average convolution applied, so the
CPU and memory series are not "resampled and smoothed" in the singleton
path as the claim states for every input log. -/
theorem c6_counterexample :
    parse_singleton_data c6Data =
      .ok ⟨["etcd", "etcd", "etcd"], [some 1, some 2, some 3],
        [some 10, some 20, some 30], [0, 1, 2]⟩ := by
  with_unfolding_all rfl

/-- C6 (amended): only the high-availability path resamples the CPU and
memory series (3-second mean buckets with time interpolation) and
smooths only the CPU rate (10-sample moving average); the singleton path
hands the raw series to plotting: memory verbatim, timestamps as the raw
elapsed seconds, and cpu as the unsmoothed gradient of the raw
cumulative-CPU series. -/
theorem c6_amended :
    (∀ data : CadvisorData, (∀ c ∈ data, ∀ r ∈ c.2, 2 ≤ r.length) →
      ∃ df, parse_singleton_data data = .ok df ∧
        df.mem = (data.map (fun c => (c.2.map sMem1).flatten)).flatten ∧
        df.timestamp = (data.map (fun c => (c.2.map elapsed).flatten)).flatten ∧
        df.cpu = (data.map (fun c => (c.2.map sCpu1).flatten)).flatten) ∧
    (∀ (id : String) (records : List (List Item)), records ≠ [] →
      (∀ r ∈ records, r ≠ []) → 10 ≤ haLen records →
      parse_ha_data [(id, records)] =
        .ok ⟨hComp1 id records, hCpu1 records, hMem1 records, hTs1 records⟩) := by
  constructor
  · intro data h
    exact ⟨_, parse_singleton_eq data h, rfl, rfl, rfl⟩
  · intro id records h0 h1 h2
    have h : ∀ c ∈ ([(id, records)] : CadvisorData),
        c.2 ≠ [] ∧ (∀ r ∈ c.2, r ≠ []) ∧ 10 ≤ haLen c.2 := by
      intro c hc
      rw [List.mem_singleton] at hc
      subst hc
      exact ⟨h0, h1, h2⟩
    simpa using parse_ha_eq [(id, records)] h

/-- C6 witness: the amended claim applied to a two-sample singleton log
and to a ten-bucket HA record. -/
theorem c6_witness :
    ((∀ c ∈ c6WSData, ∀ r ∈ c.2, 2 ≤ r.length) ∧
      ∃ df, parse_singleton_data c6WSData = .ok df ∧
        df.mem = (c6WSData.map (fun c => (c.2.map sMem1).flatten)).flatten ∧
        df.timestamp = (c6WSData.map (fun c => (c.2.map elapsed).flatten)).flatten ∧
        df.cpu = (c6WSData.map (fun c => (c.2.map sCpu1).flatten)).flatten) ∧
    (([c6WRec] ≠ [] ∧ (∀ r ∈ [c6WRec], r ≠ []) ∧ 10 ≤ haLen [c6WRec]) ∧
      parse_ha_data [("w", [c6WRec])] =
        .ok ⟨hComp1 "w" [c6WRec], hCpu1 [c6WRec], hMem1 [c6WRec],
          hTs1 [c6WRec]⟩) := by
  have h10 : haLen [c6WRec] = 10 := by with_unfolding_all rfl
  exact ⟨⟨by decide, c6_amended.1 c6WSData (by decide)⟩,
    ⟨⟨by decide, by decide, by omega⟩,
      c6_amended.2 "w" [c6WRec] (by decide) (by decide) (by omega)⟩⟩

/-- C7: in the high-availability path, for a component with records, each
record's memory working-set series and cumulative-CPU series (nanoseconds
divided by 1e9) are resampled into 3-second mean buckets with time-based
interpolation of gaps (`cpuResampled`/`memResampled`) and summed
element-wise across records (`ewSum`); the cpu column is the numerical
gradient of the summed CPU series with respect to the elapsed bucket
seconds (`hTs1`), convolved with a length-10 all-ones kernel in 'same'
mode and divided by 10; the mem column is the summed resampled memory
series. -/
theorem c7_ha_pipeline (id : String) (records : List (List Item))
    (h0 : records ≠ []) (h1 : ∀ r ∈ records, r ≠ [])
    (h2 : 10 ≤ haLen records) :
    parse_ha_data [(id, records)] =
      .ok ⟨(hTs1 records).map (fun _ => id),
        (convolve_same_ones
          (np_gradient_vals (ewSum (records.map cpuResampled)) (hTs1 records))
          10).map (fun o => o.map (fun q => q / 10)),
        ewSum (records.map memResampled),
        hTs1 records⟩ := by
  have h : ∀ c ∈ ([(id, records)] : CadvisorData),
      c.2 ≠ [] ∧ (∀ r ∈ c.2, r ≠ []) ∧ 10 ≤ haLen c.2 := by
    intro c hc
    rw [List.mem_singleton] at hc
    subst hc
    exact ⟨h0, h1, h2⟩
  simpa [hComp1, hCpu1, hMem1] using parse_ha_eq [(id, records)] h

/-- C7 witness: the pipeline applied to a component with two ten-bucket
records. -/
theorem c7_witness :
    (c7Records ≠ [] ∧ (∀ r ∈ c7Records, r ≠ []) ∧ 10 ≤ haLen c7Records) ∧
    parse_ha_data [("etcd", c7Records)] =
      .ok ⟨(hTs1 c7Records).map (fun _ => "etcd"),
        (convolve_same_ones
          (np_gradient_vals (ewSum (c7Records.map cpuResampled))
            (hTs1 c7Records)) 10).map (fun o => o.map (fun q => q / 10)),
        ewSum (c7Records.map memResampled),
        hTs1 c7Records⟩ := by
  have h10 : haLen c7Records = 10 := by with_unfolding_all rfl
  exact ⟨⟨by decide, by decide, by omega⟩,
    c7_ha_pipeline "etcd" c7Records (by decide) (by decide) (by omega)⟩

/-- C8: `formatBytes` appends 'KB' exactly when 0 < bytes < 1,000,000,
'MB' exactly when 1,000,000 <= bytes < 1,000,000,000, and 'GB' otherwise;
in particular zero and every negative input fall into the gigabyte
branch. -/
theorem c8_formatBytes_units (b : ℚ) :
    ((formatBytes b).2 = "KB" ↔ 0 < b ∧ b < 1000000) ∧
    ((formatBytes b).2 = "MB" ↔ 1000000 ≤ b ∧ b < 1000000000) ∧
    ((formatBytes b).2 = "GB" ↔ b ≤ 0 ∨ 1000000000 ≤ b) := by
  have hm : megabyte = 1000000 := by norm_num [megabyte, kilobyte]
  have hg : gigabyte = 1000000000 := by norm_num [gigabyte, megabyte, kilobyte]
  unfold formatBytes
  rw [hm, hg]
  split_ifs with h1 h2
  · refine ⟨iff_of_true rfl h1,
      iff_of_false (show ¬ ("KB" : String) = "MB" by decide) ?_,
      iff_of_false (show ¬ ("KB" : String) = "GB" by decide) ?_⟩
    · rintro ⟨hc, _⟩
      linarith [h1.2]
    · rintro (hc | hc)
      · linarith [h1.1]
      · linarith [h1.2]
  · refine ⟨iff_of_false (show ¬ ("MB" : String) = "KB" by decide) ?_,
      iff_of_true rfl h2,
      iff_of_false (show ¬ ("MB" : String) = "GB" by decide) ?_⟩
    · rintro ⟨_, hb⟩
      linarith [h2.1]
    · rintro (hc | hc)
      · linarith [h2.1]
      · linarith [h2.2]
  · push_neg at h1 h2
    refine ⟨iff_of_false (show ¬ ("GB" : String) = "KB" by decide) ?_,
      iff_of_false (show ¬ ("GB" : String) = "MB" by decide) ?_,
      iff_of_true rfl ?_⟩
    · rintro ⟨hb0, hb⟩
      linarith [h1 hb0]
    · rintro ⟨hb1, hb9⟩
      linarith [h2 hb1]
    · by_cases hb : 0 < b
      · exact Or.inr (h2 (h1 hb))
      · exact Or.inl (by linarith)

/-- C8 witness: the unit selection at zero, a negative input, and inputs
in the kilobyte and megabyte ranges. -/
theorem c8_witness :
    (formatBytes 0).2 = "GB" ∧ (formatBytes (-5)).2 = "GB" ∧
    (formatBytes 500000).2 = "KB" ∧ (formatBytes 2000000).2 = "MB" :=
  ⟨(c8_formatBytes_units 0).2.2.mpr (by norm_num),
   (c8_formatBytes_units (-5)).2.2.mpr (by norm_num),
   (c8_formatBytes_units 500000).1.mpr (by norm_num),
   (c8_formatBytes_units 2000000).2.1.mpr (by norm_num)⟩

/-- C9: `format` first computes 10 raised to its argument and only then
selects the unit: 's' exactly when the result is at least one second
(1e9 ns), 'ms' exactly on [one millisecond, one second), 'us' exactly on
[one microsecond, one millisecond), 'ns' otherwise (below one
microsecond); the four branches are exhaustive, so a string is returned
for every real argument. -/
theorem c9_format_units (x : ℝ) :
    ((format x).2 = "s" ↔ second ≤ (10 : ℝ) ^ x) ∧
    ((format x).2 = "ms" ↔
      millisecond ≤ (10 : ℝ) ^ x ∧ (10 : ℝ) ^ x < second) ∧
    ((format x).2 = "us" ↔
      microsecond ≤ (10 : ℝ) ^ x ∧ (10 : ℝ) ^ x < millisecond) ∧
    ((format x).2 = "ns" ↔ (10 : ℝ) ^ x < microsecond) ∧
    ((format x).2 = "s" ∨ (format x).2 = "ms" ∨ (format x).2 = "us" ∨
      (format x).2 = "ns") := by
  have hs : (second : ℝ) = 1000000000 := by
    norm_num [second, millisecond, microsecond, nanosecond]
  have hm : (millisecond : ℝ) = 1000000 := by
    norm_num [millisecond, microsecond, nanosecond]
  have hu : (microsecond : ℝ) = 1000 := by
    norm_num [microsecond, nanosecond]
  have hums : (microsecond : ℝ) < millisecond := by
    rw [hu, hm]
    norm_num
  have hmss : (millisecond : ℝ) < second := by
    rw [hm, hs]
    norm_num
  simp only [format]
  split_ifs with h1 h2 h3
  · refine ⟨iff_of_true rfl h1,
      iff_of_false (show ¬ ("s" : String) = "ms" by decide) ?_,
      iff_of_false (show ¬ ("s" : String) = "us" by decide) ?_,
      iff_of_false (show ¬ ("s" : String) = "ns" by decide) ?_, Or.inl rfl⟩
    · rintro ⟨_, hlt⟩
      linarith
    · rintro ⟨_, hlt⟩
      linarith
    · intro hlt
      linarith
  · refine ⟨iff_of_false (show ¬ ("ms" : String) = "s" by decide)
        (fun hc => h1 hc),
      iff_of_true rfl h2,
      iff_of_false (show ¬ ("ms" : String) = "us" by decide) ?_,
      iff_of_false (show ¬ ("ms" : String) = "ns" by decide) ?_,
      Or.inr (Or.inl rfl)⟩
    · rintro ⟨_, hlt⟩
      linarith [h2.1]
    · intro hlt
      linarith [h2.1]
  · refine ⟨iff_of_false (show ¬ ("us" : String) = "s" by decide)
        (fun hc => h1 hc),
      iff_of_false (show ¬ ("us" : String) = "ms" by decide)
        (fun hc => h2 hc),
      iff_of_true rfl h3,
      iff_of_false (show ¬ ("us" : String) = "ns" by decide) ?_,
      Or.inr (Or.inr (Or.inl rfl))⟩
    · intro hlt
      linarith [h3.1]
  · have hlt_s : (10 : ℝ) ^ x < second := lt_of_not_le h1
    have hlt_m : (10 : ℝ) ^ x < millisecond := by
      by_contra hge
      exact h2 ⟨le_of_not_lt hge, hlt_s⟩
    have hlt_u : (10 : ℝ) ^ x < microsecond := by
      by_contra hge
      exact h3 ⟨le_of_not_lt hge, hlt_m⟩
    exact ⟨iff_of_false (show ¬ ("ns" : String) = "s" by decide)
        (fun hc => h1 hc),
      iff_of_false (show ¬ ("ns" : String) = "ms" by decide)
        (fun hc => h2 hc),
      iff_of_false (show ¬ ("ns" : String) = "us" by decide)
        (fun hc => h3 hc),
      iff_of_true rfl hlt_u, Or.inr (Or.inr (Or.inr rfl))⟩

/-- C9 witness: at tick 10 the exponentiated value 1e10 ns is at least a
second, at tick 0 it is 1 ns. -/
theorem c9_witness : (format 10).2 = "s" ∧ (format 0).2 = "ns" := by
  constructor
  · apply (c9_format_units 10).1.mpr
    have h10 : (10 : ℝ) ^ (10 : ℝ) = 10000000000 := by
      rw [show (10 : ℝ) ^ (10 : ℝ) = (10 : ℝ) ^ ((10 : ℕ) : ℝ) by norm_num,
        Real.rpow_natCast]
      norm_num
    rw [h10]
    norm_num [second, millisecond, microsecond, nanosecond]
  · apply (c9_format_units 0).2.2.2.1.mpr
    rw [Real.rpow_zero]
    norm_num [microsecond, nanosecond]

/-- C10: `parse_cadvisor_data` returns inside the first loop iteration,
deciding between the two parsers solely from the record count of the
first component of the mapping, and returns Python `None` when the
mapping is empty because the loop body never executes. -/
theorem c10_first_component (id : String) (recs : List (List Item))
    (rest : CadvisorData) :
    parse_cadvisor_data ([] : CadvisorData) = .ok none ∧
    parse_cadvisor_data ((id, recs) :: rest) =
      (if recs.length = 1 then
        (parse_singleton_data ((id, recs) :: rest)).map Option.some
      else
        (parse_ha_data ((id, recs) :: rest)).map Option.some) :=
  ⟨rfl, rfl⟩

end Latent

